import Mathlib

/-!
# Verification of the Brave search core (`src/domain/brave.ts`, `src/index.ts`)

Shallow embedding of the repository's search core: the query sanitizer,
the rate limiter, the result normalizer (`extractBraveResults`), the
outbound request construction (`fetchBraveSearchResults`), the gateway
(`performWebSearch`) and the tool registration layer (`index.ts`).

Modelling conventions:
* JS strings are `List Char` for the sanitizer (JS string methods act on
  code units; queries are modelled at character granularity as the spec
  states "character count, not byte count"); elsewhere `String`.
* `Date.now()` timestamps are `Int`, passed explicitly.
* The module-level mutable `requestCount` is explicit state threaded
  through `checkRateLimit`.
* `fetch`/`await` effects are an explicit `FetchOutcome` input describing
  what the network did; thrown JS `Error`s are `Except String` /
  dedicated result constructors carrying the error message.
* `logger.*` calls have no observable effect and are not modelled.
* Optional / nullable / possibly-malformed JSON fields of the provider
  response are a `JField` value: `absent` (undefined), `nullv` (null),
  `malformed` (present but not the expected array shape), `ok`.
-/

namespace Brave

/-! ## Query sanitizer (`sanitizeQuery`, src/domain/brave.ts lines 25-35) -/

/-- The JS regex `\s` character class (also the set `String.prototype.trim`
removes): tab, LF, VT, FF, CR, space, NBSP, Ogham space mark,
U+2000..U+200A, LS, PS, NNBSP, MMSP, ideographic space, BOM. -/
def jsWs (c : Char) : Bool :=
  let n := c.toNat
  n = 0x20 || n = 0x09 || n = 0x0a || n = 0x0b || n = 0x0c || n = 0x0d ||
  n = 0xa0 || n = 0x1680 || (0x2000 ≤ n && n ≤ 0x200a) ||
  n = 0x2028 || n = 0x2029 || n = 0x202f || n = 0x205f || n = 0x3000 ||
  n = 0xfeff

/-- The character class `[\r\n\t]` of the first `replace`. -/
def crlfTab (c : Char) : Bool :=
  let n := c.toNat
  n = 0x0d || n = 0x0a || n = 0x09

/-- `.replace(/X+/g, ' ')` for a character class `X = p`: each maximal
run of `p`-characters becomes one space.  `inRun` records whether the
previous character was part of a (already replaced) run. -/
def collapseAux (p : Char → Bool) (inRun : Bool) : List Char → List Char
  | [] => []
  | c :: rest =>
    if p c then
      if inRun then collapseAux p true rest
      else ' ' :: collapseAux p true rest
    else
      c :: collapseAux p false rest

/-- `.replace(/X+/g, ' ')` on a whole string. -/
def collapseRuns (p : Char → Bool) (s : List Char) : List Char :=
  collapseAux p false s

/-- `String.prototype.trim`: drop leading and trailing whitespace. -/
def trimChars (s : List Char) : List Char :=
  ((s.dropWhile jsWs).reverse.dropWhile jsWs).reverse

/-- `config.search.maxQueryLength` (src/config/index.ts). -/
def maxQueryLength : Nat := 300

/-- `sanitizeQuery`: trim, collapse `[\r\n\t]+` runs to a space, collapse
`\s+` runs to a space, `.slice(0, maxQueryLength)`. -/
def sanitizeQuery (q : List Char) : List Char :=
  (collapseRuns jsWs (collapseRuns crlfTab (trimChars q))).take maxQueryLength

/-- `sanitizeQuery` on a `String`. -/
def sanitizeQueryStr (s : String) : String :=
  String.mk (sanitizeQuery s.data)

/-! ## Rate limiter (`checkRateLimit`, src/domain/brave.ts lines 41-64) -/

/-- `config.rateLimit` shape (src/types.ts `RateLimit`). -/
structure RateLimit where
  perSecond : Nat
  perMonth : Nat
  deriving Repr, DecidableEq

/-- Production values of `config.rateLimit` (src/config/index.ts,
`NODE_ENV ≠ 'test'`). -/
def prodRateLimit : RateLimit := ⟨20, 20000000⟩

/-- Test values of `config.rateLimit` (src/config/index.ts,
`NODE_ENV = 'test'`). -/
def testRateLimit : RateLimit := ⟨5, 1000⟩

/-- The module-level `requestCount` state (src/types.ts `RequestCount`).
The counters only ever start at 0 and are incremented or zeroed, so `Nat`
is faithful; `lastReset` is a `Date.now()` timestamp. -/
structure RequestCount where
  second : Nat
  month : Nat
  lastReset : Int
  deriving Repr, DecidableEq

/-- Outcome of one `checkRateLimit()` call: either the call returned
(`ok`, with the mutated state) or it threw `Error('Rate limit exceeded')`
(`rateLimited`, with the state as left behind by the call — the lazy
window reset may already have happened). -/
inductive CheckResult where
  | ok (rc : RequestCount)
  | rateLimited (rc : RequestCount)
  deriving Repr, DecidableEq

/-- The state `checkRateLimit` left behind, whether it threw or not. -/
def CheckResult.state : CheckResult → RequestCount
  | .ok rc => rc
  | .rateLimited rc => rc

/-- Whether the check admitted the call. -/
def CheckResult.isOk : CheckResult → Bool
  | .ok _ => true
  | .rateLimited _ => false

/-- `checkRateLimit()`: lazily reset the per-second window when more than
1000ms have elapsed, then fail if either counter has reached its ceiling,
else increment both counters. -/
def checkRateLimit (limits : RateLimit) (rc : RequestCount) (now : Int) :
    CheckResult :=
  let rc1 :=
    if now - rc.lastReset > 1000 then
      { rc with second := 0, lastReset := now }
    else rc
  if rc1.second ≥ limits.perSecond ∨ rc1.month ≥ limits.perMonth then
    .rateLimited rc1
  else
    .ok { rc1 with second := rc1.second + 1, month := rc1.month + 1 }

/-- A sequence of `checkRateLimit` calls at the given timestamps,
`some` of the final state when every call succeeded, `none` when any
call threw. -/
def runChecks (limits : RateLimit) (rc : RequestCount) :
    List Int → Option RequestCount
  | [] => some rc
  | t :: ts =>
    match checkRateLimit limits rc t with
    | .ok rc' => runChecks limits rc' ts
    | .rateLimited _ => none

/-! ## Provider response data model (src/types.ts) -/

/-- A JSON field of the provider response as the dynamic checks of
`extractBraveResults` see it: missing, `null`, present but not the
expected array shape, or well-formed. -/
inductive JField (α : Type) where
  | absent
  | nullv
  | malformed
  | ok (value : α)
  deriving Repr, DecidableEq

/-- `BraveWebResult` (fields the code reads; unused optional metadata
fields — thumbnail, date, source — are not modelled). -/
structure BraveWebResult where
  title : String
  url : String
  description : String
  snippet : Option String := none
  deriving Repr, DecidableEq

/-- `BraveNewsResult` (fields the code reads). -/
structure BraveNewsResult where
  title : String
  url : String
  description : String
  deriving Repr, DecidableEq

/-- `BraveVideoResult` (fields the code reads). -/
structure BraveVideoResult where
  title : String
  url : String
  description : String
  deriving Repr, DecidableEq

/-- `BraveMixedItem`: one ordering directive `{type, index?, all?}`.
`all` is the JS truthiness of the optional boolean field. -/
structure BraveMixedItem where
  type : String
  index : Option Int := none
  all : Bool := false
  deriving Repr, DecidableEq

/-- `BraveSearchResponse` as consumed by `extractBraveResults`: the
`news`/`videos` fields stand for `data.news(.results)` /
`data.videos(.results)` (a present wrapper whose `results` is not an
array is `malformed`; a missing or null wrapper is `absent`/`nullv`);
`mixed` stands for `data.mixed(.main)` likewise.  The metadata fields
(`query`, `total`, `page`, ...) are never read and not modelled. -/
structure BraveSearchResponse where
  web : JField (List BraveWebResult) := .absent
  news : JField (List BraveNewsResult) := .absent
  videos : JField (List BraveVideoResult) := .absent
  mixed : JField (List BraveMixedItem) := .absent
  deriving Repr, DecidableEq

/-- `SearchResult.resultType` (the `'web' | 'news' | 'video'` literals). -/
inductive ResultType where
  | web
  | news
  | video
  deriving Repr, DecidableEq

/-- `SearchResult` (src/types.ts). -/
structure SearchResult where
  title : String
  description : String
  url : String
  resultType : ResultType
  deriving Repr, DecidableEq

/-! ## Result normalizer (`extractBraveResults`, src/domain/brave.ts
lines 90-208) -/

/-- JS `a || b || ''` for a string `a` and an optional string `b`
(empty string and `undefined` are falsy). -/
def jsOrStr (a : String) (b : Option String) : String :=
  if a = "" then b.getD "" else a

/-- The web-result mapping `result => ({title, description || snippet
|| '', url, resultType: 'web'})`. -/
def mkWebResult (r : BraveWebResult) : SearchResult :=
  { title := r.title, description := jsOrStr r.description r.snippet,
    url := r.url, resultType := .web }

/-- The news-result mapping. -/
def mkNewsResult (r : BraveNewsResult) : SearchResult :=
  { title := r.title, description := r.description, url := r.url,
    resultType := .news }

/-- The video-result mapping. -/
def mkVideoResult (r : BraveVideoResult) : SearchResult :=
  { title := r.title, description := r.description, url := r.url,
    resultType := .video }

/-- The local `webResults` list: `data.web` mapped when it is an array,
else empty (malformed web sections only log a warning). -/
def webResultsOf (data : BraveSearchResponse) : List SearchResult :=
  match data.web with
  | .ok l => l.map mkWebResult
  | _ => []

/-- The local `newsResults` list. -/
def newsResultsOf (data : BraveSearchResponse) : List SearchResult :=
  match data.news with
  | .ok l => l.map mkNewsResult
  | _ => []

/-- The local `videoResults` list. -/
def videoResultsOf (data : BraveSearchResponse) : List SearchResult :=
  match data.videos with
  | .ok l => l.map mkVideoResult
  | _ => []

/-- The `switch (mixedItem.type)` resolving a directive to one of the
three section lists; `none` for an unrecognized type (the `default:`
branch, which only warns and `continue`s). -/
def resolveSection (ty : String) (web news video : List SearchResult) :
    Option (List SearchResult) :=
  if ty = "web" then some web
  else if ty = "news" then some news
  else if ty = "videos" then some video
  else none

/-- The body of one loop iteration acting on `allResults`: take the
whole section when `all` is truthy, else the item at `index` when
`index` is a number within `[0, length)`, else nothing. -/
def applyDirective (src : List SearchResult) (item : BraveMixedItem)
    (acc : List SearchResult) : List SearchResult :=
  if item.all then acc ++ src
  else
    match item.index with
    | some i =>
      if 0 ≤ i then
        match src[i.toNat]? with
        | some x => acc ++ [x]
        | none => acc
      else acc
    | none => acc

/-- The `for (const mixedItem of data.mixed.main)` loop, with the
`continue` on unknown types and the `break` once `allResults.length >=
count`. -/
def mixedLoop (web news video : List SearchResult) (count : Nat)
    (acc : List SearchResult) : List BraveMixedItem → List SearchResult
  | [] => acc
  | item :: rest =>
    match resolveSection item.type web news video with
    | none => mixedLoop web news video count acc rest
    | some src =>
      let acc' := applyDirective src item acc
      if count ≤ acc'.length then acc'
      else mixedLoop web news video count acc' rest

/-- `extractBraveResults(data, count)`: build the three section lists,
interleave by the mixed ordering hint when `data.mixed.main` is an
array, else concatenate, and `.slice(0, count)`. -/
def extractBraveResults (data : BraveSearchResponse) (count : Nat) :
    List SearchResult :=
  let web := webResultsOf data
  let news := newsResultsOf data
  let video := videoResultsOf data
  let allResults :=
    match data.mixed with
    | .ok main => mixedLoop web news video count [] main
    | _ => web ++ news ++ video
  allResults.take count

/-! ## Outbound request and fetch (`fetchBraveSearchResults`,
src/domain/brave.ts lines 214-253) -/

/-- The query parameters `url.searchParams.set` puts on the outbound
provider request, in call order. -/
def outboundRequestParams (query : String) (count : Nat) :
    List (String × String) :=
  [("q", query), ("count", toString count), ("safesearch", "strict")]

/-- What the network did for one fetch: the promise rejected
(`networkFailure`), or a response arrived with a status, status text
and a body whose JSON parse either fails or yields a
`BraveSearchResponse`. -/
structure HttpResponse where
  status : Nat
  statusText : String
  body : Except String BraveSearchResponse

/-- Outcome of the `fetch` call. -/
inductive FetchOutcome where
  | networkFailure (msg : String)
  | response (r : HttpResponse)

/-- `Response.ok`: status in the range 200-299. -/
def responseOk (r : HttpResponse) : Bool :=
  200 ≤ r.status && r.status < 300

/-- `fetchBraveSearchResults(query, count)` under a given network
outcome: the request it issues, paired with either the thrown error's
message or the extracted results. -/
def fetchBraveSearchResults (query : String) (count : Nat)
    (outcome : FetchOutcome) :
    List (String × String) × Except String (List SearchResult) :=
  (outboundRequestParams query count,
    match outcome with
    | .networkFailure m => .error m
    | .response r =>
      if responseOk r then
        match r.body with
        | .error m => .error m
        | .ok data => .ok (extractBraveResults data count)
      else if r.status = 401 then
        .error "Brave Search API: Unauthorized - check your API key"
      else if r.status = 429 then
        .error "Brave Search API: Rate limit exceeded"
      else
        .error ("Brave Search API error: " ++ toString r.status ++ " "
          ++ r.statusText))

/-! ## Gateway (`performWebSearch`, src/domain/brave.ts lines 256-290)
and formatter (`formatSearchResults`, lines 295-327) -/

/-- `'strict' | 'moderate' | 'off'`. -/
inductive SafeSearchLevel where
  | strict
  | moderate
  | off
  deriving Repr, DecidableEq

/-- `config.search.defaultResults`. -/
def defaultResults : Nat := 5

/-- `config.search.defaultSafeSearch`. -/
def defaultSafeSearch : SafeSearchLevel := .strict

/-- The emoji marker for a result type. -/
def resultEmoji : ResultType → String
  | .web => "🌐"
  | .news => "📰"
  | .video => "🎬"

/-- One formatted result block. -/
def formatOneResult (index : Nat) (r : SearchResult) : String :=
  let head := "### " ++ toString (index + 1) ++ ". "
    ++ resultEmoji r.resultType ++ " " ++ r.title
  let withDesc := if r.description = "" then head
    else head ++ "\n" ++ r.description
  withDesc ++ "\n[Read more](" ++ r.url ++ ")"

/-- `formatSearchResults(query, results)`. -/
def formatSearchResults (query : String) (results : List SearchResult) :
    String :=
  let blocks := results.enum.map fun p => formatOneResult p.1 p.2
  "Search results for \"" ++ query ++ "\" ("
    ++ toString results.length ++ " results)\n\n"
    ++ String.intercalate "\n\n" blocks

/-- The catch-all error text of `performWebSearch`. -/
def searchErrorText (query msg : String) : String :=
  "Sorry, there was an error performing your search for \"" ++ query
    ++ "\". Error: " ++ msg ++ "."

/-- The zero-results text of `performWebSearch`. -/
def noResultsText (query : String) : String :=
  "No results found for \"" ++ query
    ++ "\". Try using different keywords or check your spelling."

/-- `performWebSearch(query, count, safeSearch)`: rate-limit check,
sanitize, fetch, format — every thrown error caught and turned into
`searchErrorText` on the original query.  Returns the text and the
rate-limit state left behind.  `safeSearch` reaches only a debug log
and is otherwise unused by the code. -/
def performWebSearch (limits : RateLimit) (query : String)
    (count : Nat) (_safeSearch : SafeSearchLevel) (rc : RequestCount)
    (now : Int) (outcome : FetchOutcome) : String × RequestCount :=
  match checkRateLimit limits rc now with
  | .rateLimited rc' => (searchErrorText query "Rate limit exceeded", rc')
  | .ok rc' =>
    let sanitizedQuery := sanitizeQueryStr query
    match (fetchBraveSearchResults sanitizedQuery count outcome).2 with
    | .error m => (searchErrorText query m, rc')
    | .ok results =>
      if results.length = 0 then (noResultsText query, rc')
      else (formatSearchResults query results, rc')

/-! ## Tool layer (`src/index.ts`, `brave_web_search` registration) -/

/-- The tool handler of `src/index.ts` invokes
`performWebSearch(args.query, args.count, args.safeSearch,
args.freshness)`.  The TS declaration of `performWebSearch` has only
three parameters, so JS silently drops the fourth argument: `freshness`
is accepted by the tool schema, passed at the call site, and never
reaches the outbound request.  `count` and `safeSearch` get their zod
defaults when omitted. -/
def braveWebSearchTool (limits : RateLimit) (query : String)
    (count : Option Nat) (safeSearch : Option SafeSearchLevel)
    (_freshness : Option String) (rc : RequestCount) (now : Int)
    (outcome : FetchOutcome) : String × RequestCount :=
  performWebSearch limits query (count.getD defaultResults)
    (safeSearch.getD defaultSafeSearch) rc now outcome

/-- The outbound request parameters a tool invocation produces (the
request `fetchBraveSearchResults` issues for it). -/
def toolRequestParams (query : String) (count : Option Nat)
    (_safeSearch : Option SafeSearchLevel) (_freshness : Option String) :
    List (String × String) :=
  outboundRequestParams (sanitizeQueryStr query) (count.getD defaultResults)

/-! ## Spec-side normalizer (spec.md §4.3, written from the spec's words
for the refinement claim about `extractBraveResults`) -/

/-- Modelled from the spec: "append only that single item when the index
is within bounds (0 ≤ index < list length), otherwise skip". -/
def specApplyDirective (src : List SearchResult) (item : BraveMixedItem)
    (acc : List SearchResult) : List SearchResult :=
  if item.all then acc ++ src
  else
    match item.index with
    | some i =>
      if 0 ≤ i ∧ i < (src.length : Int) then
        acc ++ [src.getD i.toNat ⟨"", "", "", .web⟩]
      else acc
    | none => acc

/-- Modelled from the spec: one directive step of §4.3 step 2, carrying a
"stopped" flag — a stopped computation ignores all later directives;
after a recognized directive the flag is set exactly when the
accumulated output has reached `count`. -/
def specStep (web news video : List SearchResult) (count : Nat)
    (st : List SearchResult × Bool) (item : BraveMixedItem) :
    List SearchResult × Bool :=
  if st.2 then st
  else
    match resolveSection item.type web news video with
    | none => (st.1, false)
    | some src =>
      let acc' := specApplyDirective src item st.1
      (acc', decide (count ≤ acc'.length))

/-- Modelled from the spec (§4.3): fold the directives with `specStep`
when a well-formed hint is present, else concatenate the three lists;
truncate to `count` regardless of path. -/
def specNormalize (data : BraveSearchResponse) (count : Nat) :
    List SearchResult :=
  let web := webResultsOf data
  let news := newsResultsOf data
  let video := videoResultsOf data
  (match data.mixed with
   | .ok main => (main.foldl (specStep web news video count) ([], false)).1
   | _ => web ++ news ++ video).take count

/-! ## Auxiliary predicate for reasoning about collapsed strings -/

/-- No two adjacent characters both satisfy `p`. -/
def noAdjP (p : Char → Bool) : List Char → Prop
  | a :: b :: rest => ¬(p a = true ∧ p b = true) ∧ noAdjP p (b :: rest)
  | _ => True

end Brave

namespace Brave

/-! # Lemmas and claim theorems -/

/-! ## Sanitizer infrastructure -/

theorem jsWs_space : jsWs ' ' = true := by decide

theorem crlfTab_space : crlfTab ' ' = false := by decide

theorem jsWs_of_crlfTab {c : Char} (h : crlfTab c = true) : jsWs c = true := by
  simp only [crlfTab, decide_eq_true_eq, Bool.or_eq_true] at h
  simp only [jsWs, decide_eq_true_eq, Bool.or_eq_true, Bool.and_eq_true]
  omega

theorem collapseAux_nil (p : Char → Bool) (b : Bool) :
    collapseAux p b [] = [] := rfl

theorem collapseAux_cons_neg {p : Char → Bool} {c : Char} (b : Bool)
    (s : List Char) (h : p c = false) :
    collapseAux p b (c :: s) = c :: collapseAux p false s := by
  simp [collapseAux, h]

theorem collapseAux_cons_pos_false {p : Char → Bool} {c : Char}
    (s : List Char) (h : p c = true) :
    collapseAux p false (c :: s) = ' ' :: collapseAux p true s := by
  simp [collapseAux, h]

theorem collapseAux_cons_pos_true {p : Char → Bool} {c : Char}
    (s : List Char) (h : p c = true) :
    collapseAux p true (c :: s) = collapseAux p true s := by
  simp [collapseAux, h]

/-- Every character a collapse emits is the replacement space or a
non-`p` character of the input. -/
theorem mem_collapseAux {p : Char → Bool} {c : Char} :
    ∀ {b : Bool} {s : List Char}, c ∈ collapseAux p b s →
      c = ' ' ∨ p c = false := by
  intro b s
  induction s generalizing b with
  | nil => intro h; simp [collapseAux] at h
  | cons c' rest ih =>
    intro h
    by_cases hp : p c' = true
    · cases b with
      | true => exact ih (by rwa [collapseAux_cons_pos_true rest hp] at h)
      | false =>
        rw [collapseAux_cons_pos_false rest hp] at h
        rcases List.mem_cons.mp h with h | h
        · exact Or.inl h
        · exact ih h
    · rw [collapseAux_cons_neg b rest (Bool.not_eq_true _ ▸ hp)] at h
      rcases List.mem_cons.mp h with h | h
      · subst h; exact Or.inr (Bool.not_eq_true _ ▸ hp)
      · exact ih h

/-- In run-skipping mode the next emitted character is not a
`p`-character. -/
theorem head?_collapseAux_true {p : Char → Bool} {c : Char} :
    ∀ {s : List Char}, (collapseAux p true s).head? = some c →
      p c = false := by
  intro s
  induction s with
  | nil => intro h; simp [collapseAux] at h
  | cons c' rest ih =>
    intro h
    by_cases hp : p c' = true
    · exact ih (by rwa [collapseAux_cons_pos_true rest hp] at h)
    · rw [collapseAux_cons_neg true rest (Bool.not_eq_true _ ▸ hp)] at h
      simp only [List.head?_cons, Option.some.injEq] at h
      subst h; exact Bool.not_eq_true _ ▸ hp

theorem noAdjP_cons_of_head {p : Char → Bool} {a : Char} {l : List Char}
    (h1 : ∀ x, l.head? = some x → ¬(p a = true ∧ p x = true))
    (h2 : noAdjP p l) : noAdjP p (a :: l) := by
  cases l with
  | nil => trivial
  | cons b rest => exact ⟨h1 b rfl, h2⟩

/-- A collapse never emits two adjacent `p`-characters. -/
theorem noAdjP_collapseAux {p : Char → Bool} :
    ∀ {b : Bool} (s : List Char), noAdjP p (collapseAux p b s) := by
  intro b s
  induction s generalizing b with
  | nil => simp [collapseAux, noAdjP]
  | cons c rest ih =>
    by_cases hp : p c = true
    · cases b with
      | true => rw [collapseAux_cons_pos_true rest hp]; exact ih
      | false =>
        rw [collapseAux_cons_pos_false rest hp]
        refine noAdjP_cons_of_head ?_ ih
        intro x hx hand
        exact absurd hand.2 (by simp [head?_collapseAux_true hx])
    · rw [collapseAux_cons_neg b rest (Bool.not_eq_true _ ▸ hp)]
      refine noAdjP_cons_of_head ?_ ih
      intro x _ hand
      exact hp hand.1

theorem getLast?_cons_of_ne_nil {α : Type} {a : α} {l : List α}
    (h : l ≠ []) : (a :: l).getLast? = l.getLast? := by
  cases l with
  | nil => exact absurd rfl h
  | cons b rest => exact List.getLast?_cons_cons

/-- A collapse of an input whose last character is not a `p`-character
is nonempty. -/
theorem collapseAux_ne_nil {p : Char → Bool} {c : Char} :
    ∀ {b : Bool} {s : List Char}, s.getLast? = some c → p c = false →
      collapseAux p b s ≠ [] := by
  intro b s
  induction s generalizing b with
  | nil => intro h; simp at h
  | cons c' rest ih =>
    intro hlast hc
    cases rest with
    | nil =>
      simp only [List.getLast?_singleton, Option.some.injEq] at hlast
      subst hlast
      rw [collapseAux_cons_neg b [] hc]
      simp
    | cons d rest' =>
      rw [List.getLast?_cons_cons] at hlast
      by_cases hp : p c' = true
      · cases b with
        | true =>
          rw [collapseAux_cons_pos_true _ hp]
          exact ih hlast hc
        | false =>
          rw [collapseAux_cons_pos_false _ hp]
          simp
      · rw [collapseAux_cons_neg b _ (Bool.not_eq_true _ ▸ hp)]
        simp

/-- A collapse preserves a non-`p` last character. -/
theorem getLast?_collapseAux {p : Char → Bool} {c : Char} :
    ∀ {b : Bool} {s : List Char}, s.getLast? = some c → p c = false →
      (collapseAux p b s).getLast? = some c := by
  intro b s
  induction s generalizing b with
  | nil => intro h; simp at h
  | cons c' rest ih =>
    intro hlast hc
    cases rest with
    | nil =>
      simp only [List.getLast?_singleton, Option.some.injEq] at hlast
      subst hlast
      rw [collapseAux_cons_neg b [] hc]
      simp [collapseAux]
    | cons d rest' =>
      rw [List.getLast?_cons_cons] at hlast
      by_cases hp : p c' = true
      · cases b with
        | true =>
          rw [collapseAux_cons_pos_true _ hp]
          exact ih hlast hc
        | false =>
          rw [collapseAux_cons_pos_false _ hp,
            getLast?_cons_of_ne_nil (collapseAux_ne_nil hlast hc)]
          exact ih hlast hc
      · rw [collapseAux_cons_neg b _ (Bool.not_eq_true _ ▸ hp),
          getLast?_cons_of_ne_nil (collapseAux_ne_nil hlast hc)]
        exact ih hlast hc

/-- A collapse of an input without `p`-characters is the identity. -/
theorem collapseAux_eq_self_of_not {p : Char → Bool} :
    ∀ {s : List Char}, (∀ c ∈ s, p c = false) →
      collapseAux p false s = s := by
  intro s
  induction s with
  | nil => intro _; rfl
  | cons c rest ih =>
    intro h
    rw [collapseAux_cons_neg false rest (h c (List.mem_cons_self c rest))]
    rw [ih fun d hd => h d (List.mem_cons_of_mem c hd)]

theorem collapseAux_true_of_head {p : Char → Bool} {s : List Char}
    (h : ∀ d, s.head? = some d → p d = false) :
    collapseAux p true s = collapseAux p false s := by
  cases s with
  | nil => rfl
  | cons d rest =>
    rw [collapseAux_cons_neg true rest (h d rfl),
      collapseAux_cons_neg false rest (h d rfl)]

/-- A collapse of a string whose `p`-characters are single spaces with
no two adjacent is the identity. -/
theorem collapseAux_eq_self_of_clean {p : Char → Bool} :
    ∀ {s : List Char}, (∀ c ∈ s, p c = true → c = ' ') → noAdjP p s →
      collapseAux p false s = s := by
  intro s
  induction s with
  | nil => intro _ _; rfl
  | cons c rest ih =>
    intro hcl hadj
    have hrest : collapseAux p false rest = rest :=
      ih (fun d hd => hcl d (List.mem_cons_of_mem c hd))
        (by cases rest with
         | nil => trivial
         | cons d rest' => exact hadj.2)
    by_cases hp : p c = true
    · have hc : c = ' ' := hcl c (List.mem_cons_self c rest) hp
      rw [collapseAux_cons_pos_false rest hp, ← hc]
      have hhead : ∀ d, rest.head? = some d → p d = false := by
        intro d hd
        cases rest with
        | nil => simp at hd
        | cons e rest' =>
          simp only [List.head?_cons, Option.some.injEq] at hd
          rw [← hd]
          by_cases hpd : p e = true
          · exact absurd ⟨hp, hpd⟩ hadj.1
          · exact Bool.not_eq_true _ ▸ hpd
      rw [collapseAux_true_of_head hhead, hrest]
    · rw [collapseAux_cons_neg false rest (Bool.not_eq_true _ ▸ hp), hrest]

/-! ## Trim infrastructure -/

theorem head?_dropWhile_ws {s : List Char} {c : Char}
    (h : (s.dropWhile jsWs).head? = some c) : jsWs c = false := by
  have := List.head?_dropWhile_not jsWs s
  rw [h] at this
  exact this

theorem getLast?_dropWhile_of_ne_nil {p : Char → Bool} :
    ∀ {s : List Char}, s.dropWhile p ≠ [] →
      (s.dropWhile p).getLast? = s.getLast? := by
  intro s
  induction s with
  | nil => intro h; exact absurd rfl h
  | cons c rest ih =>
    intro h
    by_cases hp : p c = true
    · rw [List.dropWhile_cons, if_pos hp] at h ⊢
      have hrest : rest ≠ [] := by
        intro he; subst he; exact h (by simp)
      rw [ih h, getLast?_cons_of_ne_nil hrest]
    · rw [List.dropWhile_cons, if_neg hp]

theorem trimChars_nil : trimChars [] = [] := rfl

/-- The first character of a trimmed string is not whitespace. -/
theorem trimChars_head {s : List Char} {c : Char}
    (h : (trimChars s).head? = some c) : jsWs c = false := by
  unfold trimChars at h
  rw [List.head?_reverse] at h
  have hne : (s.dropWhile jsWs).reverse.dropWhile jsWs ≠ [] := by
    intro he; rw [he] at h; simp at h
  rw [getLast?_dropWhile_of_ne_nil hne, List.getLast?_reverse] at h
  exact head?_dropWhile_ws h

/-- The last character of a trimmed string is not whitespace. -/
theorem trimChars_getLast {s : List Char} {c : Char}
    (h : (trimChars s).getLast? = some c) : jsWs c = false := by
  unfold trimChars at h
  rw [List.getLast?_reverse] at h
  exact head?_dropWhile_ws h

theorem dropWhile_eq_self_of_head {p : Char → Bool} {s : List Char}
    (h : ∀ c, s.head? = some c → p c = false) :
    s.dropWhile p = s := by
  cases s with
  | nil => rfl
  | cons c rest => rw [List.dropWhile_cons, if_neg (by simp [h c rfl])]

/-- Trimming a string with non-whitespace ends is the identity. -/
theorem trimChars_eq_self {s : List Char}
    (h1 : ∀ c, s.head? = some c → jsWs c = false)
    (h2 : ∀ c, s.getLast? = some c → jsWs c = false) :
    trimChars s = s := by
  unfold trimChars
  rw [dropWhile_eq_self_of_head h1]
  rw [dropWhile_eq_self_of_head (by
    intro c hc
    rw [List.head?_reverse] at hc
    exact h2 c hc)]
  exact List.reverse_reverse s

/-! ## Take infrastructure -/

theorem noAdjP_take {p : Char → Bool} :
    ∀ {s : List Char} (n : Nat), noAdjP p s → noAdjP p (s.take n) := by
  intro s
  induction s with
  | nil => intro n _; simp [noAdjP]
  | cons a rest ih =>
    intro n h
    cases n with
    | zero => trivial
    | succ m =>
      rw [List.take_succ_cons]
      cases rest with
      | nil => simp [noAdjP]
      | cons b rest' =>
        cases m with
        | zero => trivial
        | succ k =>
          rw [List.take_succ_cons]
          exact ⟨h.1, by
            have := ih (k + 1) h.2
            rwa [List.take_succ_cons] at this⟩

theorem head?_take {α : Type} {s : List α} {n : Nat} (h : 0 < n) :
    (s.take n).head? = s.head? := by
  cases s with
  | nil => simp
  | cons a rest =>
    cases n with
    | zero => omega
    | succ m => simp [List.take_succ_cons]

/-! ## C6 — sanitizer shape and length bound -/

/-- C6: `sanitizeQuery` performs, in order, a trim, a collapse of
`[\r\n\t]+` runs to a single space, a collapse of `\s+` runs to a
single space, and a truncation to `maxQueryLength` characters; it is a
pure total function and its output never exceeds `maxQueryLength`
characters. -/
theorem c6_sanitize_steps_and_length_bound (q : List Char) :
    sanitizeQuery q =
      (collapseRuns jsWs (collapseRuns crlfTab (trimChars q))).take
        maxQueryLength
    ∧ (sanitizeQuery q).length ≤ maxQueryLength :=
  ⟨rfl, List.length_take_le _ _⟩

/-! ## C5 — sanitizer idempotence -/

set_option maxRecDepth 4000 in
/-- C5 counterexample: `sanitizeQuery` is not idempotent.  For 299 `a`s
followed by `" b"`, truncation to 300 characters leaves a trailing
space that a second sanitization trims away. -/
theorem c5_counterexample :
    sanitizeQuery (sanitizeQuery (List.replicate 299 'a' ++ [' ', 'b']))
      ≠ sanitizeQuery (List.replicate 299 'a' ++ [' ', 'b']) := by
  decide

/-- C5 (amended): `sanitizeQuery (sanitizeQuery q) = sanitizeQuery q`
for every query `q` whose sanitized form does not end in a space — in
particular whenever no truncation occurs.  (The unamended claim fails
only when truncation to `maxQueryLength` cuts the string right after a
collapsed space.) -/
theorem c5_sanitize_idempotent_unless_truncated_space (q : List Char)
    (h : (sanitizeQuery q).getLast? ≠ some ' ') :
    sanitizeQuery (sanitizeQuery q) = sanitizeQuery q := by
  have hmem : ∀ c ∈ sanitizeQuery q, c = ' ' ∨ jsWs c = false := by
    intro c hc
    unfold sanitizeQuery collapseRuns at hc
    exact mem_collapseAux (List.take_subset _ _ hc)
  have hclean : ∀ c ∈ sanitizeQuery q, jsWs c = true → c = ' ' := by
    intro c hc hws
    rcases hmem c hc with h' | h'
    · exact h'
    · rw [hws] at h'; exact absurd h' (by simp)
  have hnocrlf : ∀ c ∈ sanitizeQuery q, crlfTab c = false := by
    intro c hc
    by_cases hcr : crlfTab c = true
    · rcases hmem c hc with h' | h'
      · rw [h'] at hcr; rw [crlfTab_space] at hcr; exact absurd hcr (by simp)
      · rw [jsWs_of_crlfTab hcr] at h'; exact absurd h' (by simp)
    · exact Bool.not_eq_true _ ▸ hcr
  have hadj : noAdjP jsWs (sanitizeQuery q) := by
    unfold sanitizeQuery collapseRuns
    exact noAdjP_take _ (noAdjP_collapseAux _)
  have hlast : ∀ c, (sanitizeQuery q).getLast? = some c →
      jsWs c = false := by
    intro c hc
    rcases hmem c (List.mem_of_mem_getLast? hc) with h' | h'
    · subst h'; exact absurd hc h
    · exact h'
  have hhead : ∀ c, (sanitizeQuery q).head? = some c →
      jsWs c = false := by
    intro c hc
    unfold sanitizeQuery at hc
    rw [head?_take (by decide)] at hc
    cases htq : trimChars q with
    | nil =>
      rw [htq] at hc
      simp [collapseRuns, collapseAux] at hc
    | cons c0 t' =>
      rw [htq] at hc
      have hws0 : jsWs c0 = false :=
        trimChars_head (s := q) (by rw [htq]; rfl)
      have hcr0 : crlfTab c0 = false := by
        by_cases hcr : crlfTab c0 = true
        · rw [jsWs_of_crlfTab hcr] at hws0; exact absurd hws0 (by simp)
        · exact Bool.not_eq_true _ ▸ hcr
      unfold collapseRuns at hc
      rw [collapseAux_cons_neg false t' hcr0,
        collapseAux_cons_neg false _ hws0] at hc
      simp only [List.head?_cons, Option.some.injEq] at hc
      rw [← hc]
      exact hws0
  have h1 : trimChars (sanitizeQuery q) = sanitizeQuery q :=
    trimChars_eq_self hhead hlast
  have h2 : collapseRuns crlfTab (sanitizeQuery q) = sanitizeQuery q :=
    collapseAux_eq_self_of_not hnocrlf
  have h3 : collapseRuns jsWs (sanitizeQuery q) = sanitizeQuery q :=
    collapseAux_eq_self_of_clean hclean hadj
  have h4 : (sanitizeQuery q).take maxQueryLength = sanitizeQuery q :=
    List.take_of_length_le (List.length_take_le _ _)
  calc sanitizeQuery (sanitizeQuery q)
      = (collapseRuns jsWs (collapseRuns crlfTab
          (trimChars (sanitizeQuery q)))).take maxQueryLength := rfl
    _ = sanitizeQuery q := by rw [h1, h2, h3, h4]

/-- Witness for the amended C5 at a concrete query. -/
theorem c5_amended_witness :
    sanitizeQuery (sanitizeQuery ('c' :: 'a' :: 't' :: 's' :: []))
      = sanitizeQuery ('c' :: 'a' :: 't' :: 's' :: []) :=
  c5_sanitize_idempotent_unless_truncated_space _ (by decide)

/-! ## C3 — rate-limit state invariant -/

/-- C3 counterexample: a failing `checkRateLimit` call does not always
leave both counters unchanged.  With the test configuration, a state at
the month ceiling with per-second count 3 and an elapsed window: the
check fails, yet the lazy reset has zeroed the per-second counter. -/
theorem c3_counterexample :
    (checkRateLimit testRateLimit ⟨3, 1000, 0⟩ 2000).isOk = false
    ∧ (checkRateLimit testRateLimit ⟨3, 1000, 0⟩ 2000).state.second
        ≠ (⟨3, 1000, 0⟩ : RequestCount).second := by
  decide

/-- C3 (amended): every `checkRateLimit` call keeps the counters
non-negative (they are naturals by construction); a failing check never
increments either counter and leaves the per-month counter unchanged,
though the lazy window reset may have zeroed the per-second counter
when more than 1000ms have elapsed; a successful check increments both
counters by exactly 1 relative to their post-reset values; and the
per-month counter never decreases. -/
theorem c3_rate_limit_state_invariant (limits : RateLimit)
    (rc : RequestCount) (now : Int) :
    (∀ rc', checkRateLimit limits rc now = .rateLimited rc' →
      rc'.month = rc.month
      ∧ rc'.second = (if now - rc.lastReset > 1000 then 0 else rc.second)
      ∧ rc'.second ≤ rc.second)
    ∧ (∀ rc', checkRateLimit limits rc now = .ok rc' →
        rc'.month = rc.month + 1
        ∧ rc'.second =
            (if now - rc.lastReset > 1000 then 0 else rc.second) + 1)
    ∧ rc.month ≤ (checkRateLimit limits rc now).state.month := by
  unfold checkRateLimit
  by_cases hres : now - rc.lastReset > 1000 <;>
    simp only [hres, if_pos, if_neg, not_false_eq_true, ite_true,
      ite_false] <;>
    by_cases hlim : rc.second ≥ limits.perSecond ∨
      rc.month ≥ limits.perMonth <;>
    split <;>
    constructor <;>
    try constructor
  all_goals
    first
    | (intro rc' h; cases h; simp_all)
    | (simp only [CheckResult.state]; omega)
    | simp_all

/-- Witness for the amended C3: a failing check at the per-second
ceiling with no elapsed window keeps both counters at their values. -/
theorem c3_invariant_witness :
    (10 : Nat) = (⟨5, 10, 0⟩ : RequestCount).month
    ∧ (5 : Nat) = (if (0 : Int) - (⟨5, 10, 0⟩ : RequestCount).lastReset
        > 1000 then 0 else (⟨5, 10, 0⟩ : RequestCount).second)
    ∧ (5 : Nat) ≤ (⟨5, 10, 0⟩ : RequestCount).second :=
  (c3_rate_limit_state_invariant testRateLimit ⟨5, 10, 0⟩ 0).1
    ⟨5, 10, 0⟩ (by decide)

/-! ## C4 — per-second window behaviour -/

/-- A check inside the window with room in both ceilings succeeds and
increments both counters. -/
theorem checkRateLimit_ok_in_window {limits : RateLimit}
    {rc : RequestCount} {now : Int} (h1 : now - rc.lastReset ≤ 1000)
    (h2 : rc.second < limits.perSecond) (h3 : rc.month < limits.perMonth) :
    checkRateLimit limits rc now =
      .ok ⟨rc.second + 1, rc.month + 1, rc.lastReset⟩ := by
  unfold checkRateLimit
  rw [if_neg (show ¬(now - rc.lastReset > 1000) by omega)]
  rw [if_neg (show ¬(rc.second ≥ limits.perSecond ∨
    rc.month ≥ limits.perMonth) by push_neg; exact ⟨h2, h3⟩)]

/-- A check inside the window fails when a counter is at its ceiling,
leaving the state untouched. -/
theorem checkRateLimit_fail_in_window {limits : RateLimit}
    {rc : RequestCount} {now : Int} (h1 : now - rc.lastReset ≤ 1000)
    (h2 : rc.second ≥ limits.perSecond ∨ rc.month ≥ limits.perMonth) :
    checkRateLimit limits rc now = .rateLimited rc := by
  unfold checkRateLimit
  rw [if_neg (show ¬(now - rc.lastReset > 1000) by omega)]
  rw [if_pos h2]

/-- A check strictly after the window resets it and succeeds when the
ceilings allow. -/
theorem checkRateLimit_ok_after_window {limits : RateLimit}
    {rc : RequestCount} {now : Int} (h1 : now - rc.lastReset > 1000)
    (h2 : 0 < limits.perSecond) (h3 : rc.month < limits.perMonth) :
    checkRateLimit limits rc now = .ok ⟨1, rc.month + 1, now⟩ := by
  unfold checkRateLimit
  rw [if_pos h1]
  dsimp only
  rw [if_neg (show ¬((0 : Nat) ≥ limits.perSecond ∨
    rc.month ≥ limits.perMonth) by push_neg; exact ⟨h2, h3⟩)]

/-- A sequence of checks all within the current window, with room in
both ceilings, succeeds and adds its length to both counters without
touching `lastReset`. -/
theorem runChecks_within_window (limits : RateLimit) :
    ∀ (times : List Int) (rc : RequestCount),
      (∀ t ∈ times, t - rc.lastReset ≤ 1000) →
      rc.second + times.length ≤ limits.perSecond →
      rc.month + times.length ≤ limits.perMonth →
      runChecks limits rc times =
        some ⟨rc.second + times.length, rc.month + times.length,
          rc.lastReset⟩ := by
  intro times
  induction times with
  | nil =>
    intro rc _ _ _
    simp [runChecks]
  | cons t ts ih =>
    intro rc hwin hs hm
    simp only [List.length_cons] at hs hm
    have ht : t - rc.lastReset ≤ 1000 := hwin t (List.mem_cons_self t ts)
    have hstep : checkRateLimit limits rc t =
        .ok ⟨rc.second + 1, rc.month + 1, rc.lastReset⟩ :=
      checkRateLimit_ok_in_window ht (by omega) (by omega)
    have hrec : runChecks limits ⟨rc.second + 1, rc.month + 1,
        rc.lastReset⟩ ts = some ⟨rc.second + 1 + ts.length,
        rc.month + 1 + ts.length, rc.lastReset⟩ :=
      ih ⟨rc.second + 1, rc.month + 1, rc.lastReset⟩
        (fun t' ht' => hwin t' (List.mem_cons_of_mem t ht'))
        (show rc.second + 1 + ts.length ≤ limits.perSecond by omega)
        (show rc.month + 1 + ts.length ≤ limits.perMonth by omega)
    simp only [runChecks, hstep, hrec, List.length_cons,
      Option.some.injEq, RequestCount.mk.injEq]
    exact ⟨by omega, by omega, trivial⟩

/-- C4 counterexample: the claim admits a subsequent check after "at
least 1000ms"; the code resets only when *more* than 1000ms have
elapsed.  At exactly 1000ms elapsed, with the month ceiling far away,
the check still fails. -/
theorem c4_counterexample :
    ((1000 : Int) - (⟨5, 10, 0⟩ : RequestCount).lastReset ≥ 1000)
    ∧ (⟨5, 10, 0⟩ : RequestCount).month < testRateLimit.perMonth
    ∧ (checkRateLimit testRateLimit ⟨5, 10, 0⟩ 1000).isOk = false := by
  decide

/-- C4 (amended): starting from a freshly reset window with enough
month budget, exactly `perSecond` checks inside the window all succeed
and the next check inside the window fails; and a check *strictly more*
than 1000ms after the window's last reset succeeds whenever the month
ceiling is not reached (and the per-second ceiling is positive). -/
theorem c4_window_exhaustion_and_reset (limits : RateLimit)
    (rc0 : RequestCount) (times : List Int) (now' : Int) :
    (rc0.second = 0 →
      (∀ t ∈ times, t - rc0.lastReset ≤ 1000) →
      times.length = limits.perSecond →
      rc0.month + limits.perSecond ≤ limits.perMonth →
      now' - rc0.lastReset ≤ 1000 →
      ∃ rc1, runChecks limits rc0 times = some rc1
        ∧ (checkRateLimit limits rc1 now').isOk = false)
    ∧ (∀ rc now'', rc.month < limits.perMonth → 0 < limits.perSecond →
        now'' - rc.lastReset > 1000 →
        (checkRateLimit limits rc now'').isOk = true) := by
  constructor
  · intro h0 hwin hlen hm hn
    refine ⟨⟨rc0.second + times.length, rc0.month + times.length,
      rc0.lastReset⟩, runChecks_within_window limits times rc0 hwin
        (by omega) (by omega), ?_⟩
    have hfail : checkRateLimit limits ⟨rc0.second + times.length,
        rc0.month + times.length, rc0.lastReset⟩ now' =
        .rateLimited ⟨rc0.second + times.length,
          rc0.month + times.length, rc0.lastReset⟩ :=
      checkRateLimit_fail_in_window
        (by show now' - rc0.lastReset ≤ 1000; omega)
        (Or.inl (by show limits.perSecond ≤ rc0.second + times.length
                    omega))
    rw [hfail]
    rfl
  · intro rc now'' hm hs hn
    rw [checkRateLimit_ok_after_window hn hs hm]
    rfl

/-- Witness for the amended C4 with the test configuration: five checks
in the window, the sixth fails; and a later check after the window
succeeds. -/
theorem c4_window_witness :
    (∃ rc1, runChecks testRateLimit ⟨0, 0, 0⟩ [1, 2, 3, 4, 5] = some rc1
      ∧ (checkRateLimit testRateLimit rc1 1000).isOk = false)
    ∧ (checkRateLimit testRateLimit ⟨5, 5, 0⟩ 1001).isOk = true :=
  ⟨(c4_window_exhaustion_and_reset testRateLimit ⟨0, 0, 0⟩
      [1, 2, 3, 4, 5] 1000).1 rfl (by decide) rfl (by decide) (by decide),
    (c4_window_exhaustion_and_reset testRateLimit ⟨0, 0, 0⟩ [] 0).2
      ⟨5, 5, 0⟩ 1001 (by decide) (by decide) (by decide)⟩

/-! ## C2 — normalizer refinement against the spec's algorithm -/

/-- The loop body's appending behaviour coincides with the spec's
"take all / single in-bounds index / skip" description. -/
theorem applyDirective_eq_spec (src : List SearchResult)
    (item : BraveMixedItem) (acc : List SearchResult) :
    applyDirective src item acc = specApplyDirective src item acc := by
  unfold applyDirective specApplyDirective
  cases item.all with
  | true => rfl
  | false =>
    simp only [Bool.false_eq_true, if_false]
    cases hidx : item.index with
    | none => rfl
    | some i =>
      dsimp only
      by_cases h0 : (0 : Int) ≤ i
      · rw [if_pos h0]
        by_cases hlt : i.toNat < src.length
        · rw [List.getElem?_eq_getElem hlt,
            if_pos ⟨h0, by omega⟩]
          dsimp only
          congr 1
          simp [List.getD_eq_getElem?_getD, List.getElem?_eq_getElem hlt]
        · rw [List.getElem?_eq_none (by omega),
            if_neg (by push_neg; intro _; omega)]
      · rw [if_neg h0, if_neg (by push_neg; intro h; exact absurd h h0)]

theorem specStep_stopped (web news video : List SearchResult)
    (count : Nat) (acc : List SearchResult) (item : BraveMixedItem) :
    specStep web news video count (acc, true) item = (acc, true) := by
  simp [specStep]

theorem specStep_none (web news video : List SearchResult)
    (count : Nat) (acc : List SearchResult) {item : BraveMixedItem}
    (h : resolveSection item.type web news video = none) :
    specStep web news video count (acc, false) item = (acc, false) := by
  simp [specStep, h]

theorem specStep_some (web news video : List SearchResult)
    (count : Nat) (acc : List SearchResult) {item : BraveMixedItem}
    {src : List SearchResult}
    (h : resolveSection item.type web news video = some src) :
    specStep web news video count (acc, false) item =
      (specApplyDirective src item acc,
        decide (count ≤ (specApplyDirective src item acc).length)) := by
  simp [specStep, h]

theorem mixedLoop_cons_none {web news video : List SearchResult}
    {count : Nat} {acc : List SearchResult} {item : BraveMixedItem}
    {rest : List BraveMixedItem}
    (h : resolveSection item.type web news video = none) :
    mixedLoop web news video count acc (item :: rest) =
      mixedLoop web news video count acc rest := by
  simp [mixedLoop, h]

theorem mixedLoop_cons_some_ge {web news video : List SearchResult}
    {count : Nat} {acc : List SearchResult} {item : BraveMixedItem}
    {rest : List BraveMixedItem} {src : List SearchResult}
    (h : resolveSection item.type web news video = some src)
    (hc : count ≤ (applyDirective src item acc).length) :
    mixedLoop web news video count acc (item :: rest) =
      applyDirective src item acc := by
  simp [mixedLoop, h, hc]

theorem mixedLoop_cons_some_lt {web news video : List SearchResult}
    {count : Nat} {acc : List SearchResult} {item : BraveMixedItem}
    {rest : List BraveMixedItem} {src : List SearchResult}
    (h : resolveSection item.type web news video = some src)
    (hc : ¬ count ≤ (applyDirective src item acc).length) :
    mixedLoop web news video count acc (item :: rest) =
      mixedLoop web news video count (applyDirective src item acc) rest := by
  simp [mixedLoop, h, hc]

/-- Once the spec-side fold has stopped, later directives change
nothing. -/
theorem foldl_specStep_stopped (web news video : List SearchResult)
    (count : Nat) :
    ∀ (l : List BraveMixedItem) (acc : List SearchResult),
      l.foldl (specStep web news video count) (acc, true) = (acc, true) := by
  intro l
  induction l with
  | nil => intro acc; rfl
  | cons item rest ih =>
    intro acc
    rw [List.foldl_cons, specStep_stopped]
    exact ih acc

/-- The code's break-on-count loop equals the spec's stop-flag fold,
from any accumulator. -/
theorem mixedLoop_eq_foldl (web news video : List SearchResult)
    (count : Nat) :
    ∀ (main : List BraveMixedItem) (acc : List SearchResult),
      mixedLoop web news video count acc main =
        (main.foldl (specStep web news video count) (acc, false)).1 := by
  intro main
  induction main with
  | nil => intro acc; rfl
  | cons item rest ih =>
    intro acc
    rw [List.foldl_cons]
    cases hres : resolveSection item.type web news video with
    | none => rw [mixedLoop_cons_none hres, specStep_none _ _ _ _ _ hres, ih]
    | some src =>
      rw [specStep_some _ _ _ _ _ hres]
      by_cases hc : count ≤ (applyDirective src item acc).length
      · rw [mixedLoop_cons_some_ge hres hc]
        rw [applyDirective_eq_spec] at hc
        rw [decide_eq_true hc, foldl_specStep_stopped,
          ← applyDirective_eq_spec]
      · rw [mixedLoop_cons_some_lt hres hc]
        rw [applyDirective_eq_spec] at hc
        rw [decide_eq_false hc, ih, applyDirective_eq_spec]

/-- C2: `extractBraveResults` implements the spec's normalization
algorithm — with a well-formed hint the directives are processed in
order with the take-all / in-bounds-index / skip-unknown semantics and
the short-circuit once the accumulated output reaches `count`; with no
well-formed hint the output is the plain concatenation
web ++ news ++ video; and in every case at most `count` results are
returned. -/
theorem c2_normalizer_refines_spec (data : BraveSearchResponse)
    (count : Nat) :
    extractBraveResults data count = specNormalize data count
    ∧ (extractBraveResults data count).length ≤ count := by
  constructor
  · unfold extractBraveResults specNormalize
    cases data.mixed with
    | ok main => simp only [mixedLoop_eq_foldl]
    | absent => rfl
    | nullv => rfl
    | malformed => rfl
  · exact List.length_take_le _ _

/-! ## C7 — per-section mapping, description fallback, malformed
sections recovered -/

/-- C7: each well-formed section is mapped record-by-record in order;
the web description falls back from the primary description to the
snippet and otherwise is empty; a malformed section yields the empty
list for that section; and a parsed response never surfaces an error
from normalization, whatever shape its sections have. -/
theorem c7_sections_mapped_malformed_empty (data : BraveSearchResponse)
    (count : Nat) (q : String) (r : HttpResponse) :
    (∀ l, data.web = .ok l → webResultsOf data = l.map mkWebResult)
    ∧ (∀ l, data.news = .ok l → newsResultsOf data = l.map mkNewsResult)
    ∧ (∀ l, data.videos = .ok l →
        videoResultsOf data = l.map mkVideoResult)
    ∧ (∀ w : BraveWebResult, (mkWebResult w).description =
        if w.description ≠ "" then w.description
        else if w.snippet.getD "" ≠ "" then w.snippet.getD "" else "")
    ∧ (data.web = .malformed → webResultsOf data = [])
    ∧ (data.news = .malformed → newsResultsOf data = [])
    ∧ (data.videos = .malformed → videoResultsOf data = [])
    ∧ (responseOk r = true → r.body = .ok data →
        (fetchBraveSearchResults q count (.response r)).2 =
          .ok (extractBraveResults data count)) := by
  refine ⟨?_, ?_, ?_, ?_, ?_, ?_, ?_, ?_⟩
  · intro l h; simp [webResultsOf, h]
  · intro l h; simp [newsResultsOf, h]
  · intro l h; simp [videoResultsOf, h]
  · intro w
    by_cases hd : w.description = "" <;>
      by_cases hs : w.snippet.getD "" = "" <;>
      simp [mkWebResult, jsOrStr, hd, hs]
  · intro h; simp [webResultsOf, h]
  · intro h; simp [newsResultsOf, h]
  · intro h; simp [videoResultsOf, h]
  · intro hok hbody
    simp [fetchBraveSearchResults, hok, hbody]

/-- Witness for C7: a response whose three sections are all malformed
normalizes to three empty lists and still parses into an `ok` fetch
result. -/
theorem c7_witness :
    webResultsOf ⟨.malformed, .malformed, .malformed, .absent⟩ = []
    ∧ newsResultsOf ⟨.malformed, .malformed, .malformed, .absent⟩ = []
    ∧ videoResultsOf ⟨.malformed, .malformed, .malformed, .absent⟩ = []
    ∧ (fetchBraveSearchResults "cats" 5
        (.response ⟨200, "OK",
          .ok ⟨.malformed, .malformed, .malformed, .absent⟩⟩)).2 =
      .ok (extractBraveResults
        ⟨.malformed, .malformed, .malformed, .absent⟩ 5) := by
  have h := c7_sections_mapped_malformed_empty
    ⟨.malformed, .malformed, .malformed, .absent⟩ 5 "cats"
    ⟨200, "OK", .ok ⟨.malformed, .malformed, .malformed, .absent⟩⟩
  exact ⟨h.2.2.2.2.1 rfl, h.2.2.2.2.2.1 rfl, h.2.2.2.2.2.2.1 rfl,
    h.2.2.2.2.2.2.2 (by decide) rfl⟩

/-! ## C1 — every error becomes a text answer embedding the query -/

/-- C1: `performWebSearch` never raises — it is a total function into
text — and on every error path (rate limit, network failure, parse
failure, provider non-success status) it returns the catch-all text
built by concatenating the original pre-sanitization query and the
error's message. -/
theorem c1_errors_become_text (limits : RateLimit) (query : String)
    (count : Nat) (s : SafeSearchLevel) (rc : RequestCount) (now : Int)
    (outcome : FetchOutcome) :
    (∀ rc', checkRateLimit limits rc now = .rateLimited rc' →
      (performWebSearch limits query count s rc now outcome).1 =
        "Sorry, there was an error performing your search for \""
          ++ query ++ "\". Error: " ++ "Rate limit exceeded" ++ ".")
    ∧ (∀ rc' m, checkRateLimit limits rc now = .ok rc' →
        (fetchBraveSearchResults (sanitizeQueryStr query) count
          outcome).2 = .error m →
        (performWebSearch limits query count s rc now outcome).1 =
          "Sorry, there was an error performing your search for \""
            ++ query ++ "\". Error: " ++ m ++ ".") := by
  constructor
  · intro rc' h
    simp [performWebSearch, h, searchErrorText]
  · intro rc' m h hf
    simp [performWebSearch, h, hf, searchErrorText]

/-- Witness for C1: a rate-limited call returns the catch-all text. -/
theorem c1_witness :
    (performWebSearch testRateLimit "cats" 5 .strict ⟨5, 10, 0⟩ 0
      (.networkFailure "boom")).1 =
    "Sorry, there was an error performing your search for \""
      ++ "cats" ++ "\". Error: " ++ "Rate limit exceeded" ++ "." :=
  (c1_errors_become_text testRateLimit "cats" 5 .strict ⟨5, 10, 0⟩ 0
    (.networkFailure "boom")).1 ⟨5, 10, 0⟩ (by decide)

/-! ## C10 — well-formed empty ordering hint yields no results -/

/-- C10: when the provider response carries a well-formed but empty
`mixed.main` directive list, normalization returns the empty list no
matter how full the web/news/video sections are, and `performWebSearch`
returns the "No results found" message for the query. -/
theorem c10_empty_hint_no_results (limits : RateLimit) (query : String)
    (count : Nat) (s : SafeSearchLevel) (rc rc' : RequestCount)
    (now : Int) (r : HttpResponse) (data : BraveSearchResponse)
    (hmix : data.mixed = .ok [])
    (hrl : checkRateLimit limits rc now = .ok rc')
    (hok : responseOk r = true) (hbody : r.body = .ok data) :
    extractBraveResults data count = []
    ∧ (performWebSearch limits query count s rc now (.response r)).1 =
        noResultsText query := by
  have hext : extractBraveResults data count = [] := by
    simp [extractBraveResults, hmix, mixedLoop]
  refine ⟨hext, ?_⟩
  simp [performWebSearch, hrl, fetchBraveSearchResults, hok, hbody, hext]

/-- Witness for C10: a response full of web results but with an empty
mixed ordering hint produces the no-results message. -/
theorem c10_witness :
    extractBraveResults
      ⟨.ok [⟨"a", "ua", "da", none⟩], .absent, .absent, .ok []⟩ 5 = []
    ∧ (performWebSearch testRateLimit "cats" 5 .strict ⟨0, 0, 0⟩ 0
        (.response ⟨200, "OK",
          .ok ⟨.ok [⟨"a", "ua", "da", none⟩], .absent, .absent,
            .ok []⟩⟩)).1 = noResultsText "cats" :=
  c10_empty_hint_no_results testRateLimit "cats" 5 .strict ⟨0, 0, 0⟩
    ⟨1, 1, 0⟩ 0 ⟨200, "OK",
      .ok ⟨.ok [⟨"a", "ua", "da", none⟩], .absent, .absent, .ok []⟩⟩
    ⟨.ok [⟨"a", "ua", "da", none⟩], .absent, .absent, .ok []⟩
    rfl (by decide) (by decide) rfl

/-! ## C8 — the freshness token never reaches the outbound request -/

/-- C8 (code bug): the tool schema accepts and documents a `freshness`
parameter and the tool handler passes it to `performWebSearch`, but the
declared `performWebSearch` has no such parameter, so the argument is
silently dropped: the outbound request carries exactly the `q`, `count`
and `safesearch` parameters and never a `freshness` parameter,
whatever freshness token the caller supplies. -/
theorem c8_freshness_dropped (query : String) (count : Option Nat)
    (s : Option SafeSearchLevel) (f : String) :
    (toolRequestParams query count s (some f)).map Prod.fst =
      ["q", "count", "safesearch"]
    ∧ "freshness" ∉ (toolRequestParams query count s (some f)).map
        Prod.fst
    ∧ toolRequestParams "cats" none none (some "pw") =
        [("q", "cats"), ("count", "5"), ("safesearch", "strict")] := by
  refine ⟨rfl, ?_, by decide⟩
  simp [toolRequestParams, outboundRequestParams]

/-! ## C9 — the caller's safety level never affects the request -/

/-- C9: two `performWebSearch` calls identical except for the requested
safety level behave identically, and the outbound request always
carries `safesearch=strict`: the safety level does not reach the
provider request at all. -/
theorem c9_safesearch_always_strict (limits : RateLimit)
    (query : String) (count : Nat) (s₁ s₂ : SafeSearchLevel)
    (rc : RequestCount) (now : Int) (outcome : FetchOutcome) :
    performWebSearch limits query count s₁ rc now outcome =
      performWebSearch limits query count s₂ rc now outcome
    ∧ ("safesearch", "strict") ∈
        (fetchBraveSearchResults (sanitizeQueryStr query) count
          outcome).1 := by
  refine ⟨rfl, ?_⟩
  simp [fetchBraveSearchResults, outboundRequestParams]

end Brave
